import Mathlib

/-!
Verification of the `notify` repository (package `notifier` plus the
`cmd/notify` batching front end) against its natural-language specification.
The Go sources are shallowly embedded: Go `int` becomes `Int`, fallible or
aborting code returns an explicit result type, channels become lists with
explicit capacities, and the nondeterministic scheduling of `select` is made
explicit through schedule parameters.
-/

namespace Notify

/-- Message (notifier.go:34-37): a text body plus an optional delivery error,
set only on failure. `Err : error` becomes `Option String` (`none` = nil). -/
structure Message where
  Body : String
  Err : Option String
deriving Repr, DecidableEq

/-- Config (notifier.go:50-55): url of the remote server, number of workers,
sending-queue size, error-queue size. Go `int` is modelled as `Int`. -/
structure Config where
  Url : String
  NumWorkers : Int
  SendingQueueSize : Int
  ErrorQueueSize : Int
deriving Repr, DecidableEq

/-- Default number of workers (notifier.go:25). -/
def MAX_WORKERS : Int := 100

/-- The Notifier value built by `NewNotifier` (notifier.go:77-84): the config
after defaulting, and the capacities the two buffered channels are allocated
with (`make(chan Message, cfg.SendingQueueSize)` and
`make(chan Message, cfg.ErrorQueueSize)`). Both channels start empty. -/
structure Notifier where
  cfg : Config
  qCap : Int
  qerrCap : Int
deriving Repr, DecidableEq

/-- Outcome of `NewNotifier`: `fatal` models `log.Fatal` (which terminates the
process; the `return nil` after it on notifier.go:61 is unreachable), `ok`
models the normal return of a constructed Notifier. -/
inductive NewNotifierResult where
  | fatal : NewNotifierResult
  | ok : Notifier → NewNotifierResult
deriving Repr, DecidableEq

/-- NewNotifier (notifier.go:58-85): empty url is fatal; then zero-valued
fields get defaults (`NumWorkers` := MAX_WORKERS, `SendingQueueSize` :=
NumWorkers*3, `ErrorQueueSize` := NumWorkers*3, using the already-defaulted
NumWorkers), and the two channels are allocated with those capacities. -/
def NewNotifier (cfg : Config) : NewNotifierResult :=
  if cfg.Url = "" then NewNotifierResult.fatal
  else
    let cfg1 := if cfg.NumWorkers = 0 then { cfg with NumWorkers := MAX_WORKERS } else cfg
    let cfg2 :=
      if cfg1.SendingQueueSize = 0 then
        { cfg1 with SendingQueueSize := cfg1.NumWorkers * 3 }
      else cfg1
    let cfg3 :=
      if cfg2.ErrorQueueSize = 0 then
        { cfg2 with ErrorQueueSize := cfg2.NumWorkers * 3 }
      else cfg2
    NewNotifierResult.ok ⟨cfg3, cfg3.SendingQueueSize, cfg3.ErrorQueueSize⟩

/-- The NumWorkers recorded in a construction result (-1 when construction
was fatal, so the value is defined on every outcome). -/
def resultNumWorkers : NewNotifierResult → Int
  | NewNotifierResult.fatal => -1
  | NewNotifierResult.ok n => n.cfg.NumWorkers

/-- One intake-queue item as a single worker experiences it
(worker, notifier.go:143-185): whether the cancellation context is already
Done when the item is picked (`case <-ctx.Done()` ready in the select), the
message itself, and the outcome `sendNotificationWithClient` would have for
this POST (`none` models `err == nil`, i.e. success). Folding the network
outcome into the item lets two equal bodies fail differently. -/
structure WItem where
  cancel : Bool
  msg : Message
  outcome : Option String
deriving Repr, DecidableEq

/-- One observable step of the worker loop (notifier.go:143-185):
`sent m` — POST succeeded, message discarded; `failed m e` — POST failed,
`m` (with `Err` set) pushed onto the error channel by the blocking
`qerr <- m`; `cancelPushed m` / `cancelDropped m` — cancellation observed
with `m` in hand, best-effort `select { case qerr <- m ... default }` landed
or dropped; `drained m` — `m` consumed by the deferred `for range q` drain
loop after the worker returned early. -/
inductive WorkerStep where
  | sent : Message → WorkerStep
  | failed : Message → String → WorkerStep
  | cancelPushed : Message → WorkerStep
  | cancelDropped : Message → WorkerStep
  | drained : Message → WorkerStep
deriving Repr, DecidableEq

/-- The worker loop body for an item picked without cancellation
(notifier.go:171-181): send, and on error set `m.Err = err` and push the
modified copy to the error channel. -/
def normalStep (it : WItem) : WorkerStep :=
  match it.outcome with
  | none => WorkerStep.sent it.msg
  | some e => WorkerStep.failed ⟨it.msg.Body, some e⟩ e

/-- The cancellation-exit step (notifier.go:157-169): the in-hand message is
pushed to the error channel non-blocking, or dropped when the channel is
full at that moment (`errFull`). The message is pushed as read, `Err` unset. -/
def cancelStep (errFull : Bool) (m : Message) : WorkerStep :=
  if errFull then WorkerStep.cancelDropped m else WorkerStep.cancelPushed m

/-- worker (notifier.go:143-185): `for m := range q` over the items the
worker receives before the channel is closed; on each item the select
observes cancellation (`it.cancel`) or sends. On cancellation the worker
returns after the best-effort push and the deferred `for range q` drains
every remaining item. `errFull` is whether the error channel is full at the
moment of the best-effort push. The blocking push of a failed message is
modelled as always landing (the worker waits until there is room). -/
def workerGo (errFull : Bool) : List WItem → List WorkerStep
  | [] => []
  | it :: rest =>
    if it.cancel then
      cancelStep errFull it.msg :: rest.map (fun r => WorkerStep.drained r.msg)
    else
      normalStep it :: workerGo errFull rest

/-- The body POSTed to the url in a step, if the step issues a POST. -/
def stepPost : WorkerStep → Option String
  | WorkerStep.sent m => some m.Body
  | WorkerStep.failed m _ => some m.Body
  | _ => none

/-- The message a step offers to the error channel (blocking or not). -/
def stepErrAttempt : WorkerStep → Option Message
  | WorkerStep.failed m _ => some m
  | WorkerStep.cancelPushed m => some m
  | WorkerStep.cancelDropped m => some m
  | _ => none

/-- The message a step actually lands in the error channel. -/
def stepErrPush : WorkerStep → Option Message
  | WorkerStep.failed m _ => some m
  | WorkerStep.cancelPushed m => some m
  | _ => none

/-- The steps of a run whose attempted error-channel push did not land. -/
def droppedSteps (steps : List WorkerStep) : List WorkerStep :=
  steps.filter (fun s => decide (stepErrAttempt s ≠ stepErrPush s))

/-- Recognizer for the cancellation-exit drop step. -/
def isCancelDropped : WorkerStep → Bool
  | WorkerStep.cancelDropped _ => true
  | _ => false

/-- Sample item whose delivery fails. -/
def wFail : WItem := ⟨false, ⟨"a", none⟩, some "boom"⟩

/-- Sample item whose delivery succeeds. -/
def wOk : WItem := ⟨false, ⟨"b", none⟩, none⟩

/-- Sample item picked with the cancellation signal already observed. -/
def wCancel : WItem := ⟨true, ⟨"c", none⟩, none⟩

/-- Result of the HTTP client's `c.Do(req)` (notifier.go:194): a transport
error (connection failure or timeout, `err != nil`) or a response carrying a
status code. -/
inductive TransportResult where
  | err : String → TransportResult
  | resp : Nat → TransportResult
deriving Repr, DecidableEq

/-- An HTTP request as built by `http.NewRequest` plus the header set on
notifier.go:189-193. -/
structure HttpRequest where
  method : String
  url : String
  contentType : String
  body : String
deriving Repr, DecidableEq

/-- The HTTP environment of one send: whether `http.NewRequest` succeeds for
this url, and what the client's `Do` returns for a request. -/
structure HttpEnv where
  newRequestOk : Bool
  transport : HttpRequest → TransportResult

/-- sendNotificationWithClient (notifier.go:188-205): build one POST request
with header `Content-Type: text/plain` and the message text as the body,
hand it to the client exactly once (no retry), succeed exactly when the
response status code is `http.StatusOK` (200) and return an error for every
other status and for transport errors. The second component records the
requests handed to the client, in order. -/
def sendNotificationWithClient (env : HttpEnv) (url body : String) :
    Except String Unit × List HttpRequest :=
  if env.newRequestOk = false then (Except.error "http.NewRequest failed", [])
  else
    let req : HttpRequest := ⟨"POST", url, "text/plain", body⟩
    match env.transport req with
    | TransportResult.err e => (Except.error e, [req])
    | TransportResult.resp code =>
      if code ≠ 200 then
        (Except.error ("Response status code:" ++ toString code), [req])
      else (Except.ok (), [req])

/-- An environment whose server always answers 200. -/
def httpEnv200 : HttpEnv := ⟨true, fun _ => TransportResult.resp 200⟩

/-- One blocking enqueue `n.q <- m` (notifier.go:130) on the bounded sending
channel: with room the message is appended at the back; on a full channel
the caller waits while workers dequeue from the front, consuming the drain
schedule (each entry is how many messages workers remove before the channel
is re-examined); when no drain is left the caller stays blocked (`none`). -/
def enqBlocking (cap : Nat) (m : Message) :
    List Message → List Nat → Option (List Message × List Nat)
  | q, [] => if q.length < cap then some (q ++ [m], []) else none
  | q, d :: ds =>
    if q.length < cap then some (q ++ [m], d :: ds)
    else enqBlocking cap m (q.drop d) ds

/-- The observable outcome of one completed `Send` call: the sending channel
and the unconsumed drain schedule afterwards, and the messages in the order
they entered the channel. -/
structure SendOutcome where
  queue : List Message
  drains : List Nat
  enqueued : List Message
deriving Repr, DecidableEq

/-- Send (notifier.go:124-134): `for _, m := range messages { n.q <- m }` —
each message is enqueued in sequence order, one at a time, blocking on a
full channel; `none` means the call blocks for good. Send returns no value
and never waits for a delivery: the outcome depends only on channel room,
never on any delivery result. -/
def sendGo (cap : Nat) : List Message → List Nat → List Message → Option SendOutcome
  | q, ds, [] => some ⟨q, ds, []⟩
  | q, ds, m :: rest =>
    match enqBlocking cap m q ds with
    | none => none
    | some (q1, ds1) =>
      match sendGo cap q1 ds1 rest with
      | none => none
      | some out => some ⟨out.queue, out.drains, m :: out.enqueued⟩

/-- The run-time state of a Notifier: whether the sending channel is closed,
its contents, whether all workers have exited (`wg.Wait` would return),
whether the error channel is closed, and its contents. -/
structure NotifierState where
  qClosed : Bool
  q : List Message
  workersDone : Bool
  qerrClosed : Bool
  qerr : List Message
deriving Repr, DecidableEq

/-- Send at the Notifier level (notifier.go:124-134): only the sending
channel is touched; every other field of the state stays as it is. -/
def NotifierSend (cap : Nat) (st : NotifierState) (ds : List Nat)
    (messages : List Message) : Option NotifierState :=
  match sendGo cap st.q ds messages with
  | none => none
  | some out => some { st with q := out.queue }

/-- The ordered actions Stop performs. -/
inductive StopAction where
  | closeIntake : StopAction
  | waitWorkers : StopAction
  | closeErr : StopAction
  | drainErr : List Message → StopAction
deriving Repr, DecidableEq

/-- Stop (notifier.go:99-121): close the sending channel; wait for every
worker to exit (`wg.Wait`; by then the workers have emptied the closed
channel); close the error channel; finally the deferred function drains and
drops whatever the error channel still holds. The cancellation signal is
never fired: `n.stopFn()` is disabled (notifier.go:111), so workers drain
fully. -/
def NotifierStop (st : NotifierState) : NotifierState × List StopAction :=
  let st1 : NotifierState := { st with qClosed := true }
  let st2 : NotifierState := { st1 with workersDone := true, q := [] }
  let st3 : NotifierState := { st2 with qerrClosed := true }
  (⟨st3.qClosed, st3.q, st3.workersDone, st3.qerrClosed, []⟩,
   [StopAction.closeIntake, StopAction.waitWorkers, StopAction.closeErr,
    StopAction.drainErr st3.qerr])

/-- The event that wins the `select` race of one Sender iteration
(cmd/notify/main.go:157-172): the interval ticker fired, the local buffered
channel accepted the in-hand message, or the cancellation context is done. -/
inductive SenderEvent where
  | tick : SenderEvent
  | buffer : SenderEvent
  | cancel : SenderEvent
deriving Repr, DecidableEq

/-- Sender (cmd/notify/main.go:145-179): for each message read from the
input channel the select either flushes (tick case: `queueToSlice(senderq)`
in FIFO order plus the in-hand message, passed to `n.Send` as one batch),
buffers (`senderq <- m`, possible only while the buffer holds fewer than
`cap` messages — a full buffer blocks the producer until the ticker fires,
so a full buffer forces the tick case), or cancels (buffered and in-hand
messages are dropped and the loop returns with no further batch). When the
input stream ends normally the Sender waits for one tick, drains the buffer
and passes it to `n.Send` as the final batch. An exhausted schedule is read
as the ticker never winning. The result lists the batches handed to
`n.Send`, in order. -/
def senderGo (cap : Nat) :
    List SenderEvent → List Message → List Message → List (List Message)
  | _, buf, [] => [buf]
  | [], buf, m :: rest =>
    if buf.length < cap then senderGo cap [] (buf ++ [m]) rest
    else (buf ++ [m]) :: senderGo cap [] [] rest
  | e :: evs, buf, m :: rest =>
    match e with
    | SenderEvent.tick => (buf ++ [m]) :: senderGo cap evs [] rest
    | SenderEvent.cancel => []
    | SenderEvent.buffer =>
      if buf.length < cap then senderGo cap evs (buf ++ [m]) rest
      else (buf ++ [m]) :: senderGo cap evs [] rest

/-- Sample messages. -/
def mA : Message := ⟨"m1", none⟩

/-- Second sample message. -/
def mB : Message := ⟨"m2", none⟩

/-- Third sample message. -/
def mC : Message := ⟨"m3", none⟩

/-- C1: evaluation of the code at the failing input. The claim (and the
package's own test, notifier_test.go:39-47, which checks an `error` return)
says construction with an empty url fails with a ConfigError surfaced
synchronously to the caller; the code instead calls `log.Fatal`, which
terminates the process and never returns control or an error value. -/
theorem C1_empty_url_is_fatal :
    NewNotifier ⟨"", 0, 0, 0⟩ = NewNotifierResult.fatal := by
  decide

/-- C2 counterexample: with all-zero optional fields, the defaulted
NumWorkers is 100 (MAX_WORKERS), not 20 as the claim states. -/
theorem C2_default_numWorkers_not_20 :
    resultNumWorkers (NewNotifier ⟨"u", 0, 0, 0⟩) ≠ 20 := by
  decide

/-- C2 (amended): for every Config with non-empty url, construction succeeds
and each zero-valued field is replaced by its default: NumWorkers defaults to
100 (MAX_WORKERS), SendingQueueSize defaults to NumWorkers*3, ErrorQueueSize
defaults to NumWorkers*3 (both using the defaulted NumWorkers); the sending
and error queues are then allocated with exactly those capacities. -/
theorem C2_defaults_applied (cfg : Config) (h : cfg.Url ≠ "") :
    ∃ n : Notifier, NewNotifier cfg = NewNotifierResult.ok n ∧
      n.cfg.Url = cfg.Url ∧
      n.cfg.NumWorkers = (if cfg.NumWorkers = 0 then 100 else cfg.NumWorkers) ∧
      n.cfg.SendingQueueSize =
        (if cfg.SendingQueueSize = 0 then n.cfg.NumWorkers * 3 else cfg.SendingQueueSize) ∧
      n.cfg.ErrorQueueSize =
        (if cfg.ErrorQueueSize = 0 then n.cfg.NumWorkers * 3 else cfg.ErrorQueueSize) ∧
      n.qCap = n.cfg.SendingQueueSize ∧
      n.qerrCap = n.cfg.ErrorQueueSize := by
  unfold NewNotifier
  rw [if_neg h]
  by_cases h1 : cfg.NumWorkers = 0 <;>
    by_cases h2 : cfg.SendingQueueSize = 0 <;>
      by_cases h3 : cfg.ErrorQueueSize = 0 <;>
        simp [h1, h2, h3, MAX_WORKERS]

/-- C2 witness: the amended claim at the concrete config
`{Url := "u", NumWorkers := 0, SendingQueueSize := 0, ErrorQueueSize := 0}`,
where construction yields NumWorkers 100 and both queue capacities 300. -/
theorem C2_defaults_applied_witness :
    (⟨"u", 0, 0, 0⟩ : Config).Url ≠ "" ∧
    ∃ n : Notifier, NewNotifier ⟨"u", 0, 0, 0⟩ = NewNotifierResult.ok n ∧
      n.cfg.Url = (⟨"u", 0, 0, 0⟩ : Config).Url ∧
      n.cfg.NumWorkers =
        (if (⟨"u", 0, 0, 0⟩ : Config).NumWorkers = 0 then 100
         else (⟨"u", 0, 0, 0⟩ : Config).NumWorkers) ∧
      n.cfg.SendingQueueSize =
        (if (⟨"u", 0, 0, 0⟩ : Config).SendingQueueSize = 0 then n.cfg.NumWorkers * 3
         else (⟨"u", 0, 0, 0⟩ : Config).SendingQueueSize) ∧
      n.cfg.ErrorQueueSize =
        (if (⟨"u", 0, 0, 0⟩ : Config).ErrorQueueSize = 0 then n.cfg.NumWorkers * 3
         else (⟨"u", 0, 0, 0⟩ : Config).ErrorQueueSize) ∧
      n.qCap = n.cfg.SendingQueueSize ∧
      n.qerrCap = n.cfg.ErrorQueueSize :=
  ⟨by decide, C2_defaults_applied ⟨"u", 0, 0, 0⟩ (by decide)⟩

lemma workerGo_cons_nocancel (errFull : Bool) (it : WItem) (rest : List WItem)
    (h : it.cancel = false) :
    workerGo errFull (it :: rest) = normalStep it :: workerGo errFull rest := by
  simp [workerGo, h]

lemma workerGo_cons_cancel (errFull : Bool) (it : WItem) (rest : List WItem)
    (h : it.cancel = true) :
    workerGo errFull (it :: rest) =
      cancelStep errFull it.msg :: rest.map (fun r => WorkerStep.drained r.msg) := by
  simp [workerGo, h]

lemma workerGo_append_nocancel (errFull : Bool) (q1 q2 : List WItem)
    (h : ∀ it ∈ q1, it.cancel = false) :
    workerGo errFull (q1 ++ q2) = q1.map normalStep ++ workerGo errFull q2 := by
  induction q1 with
  | nil => simp
  | cons it rest ih =>
    rw [List.cons_append, workerGo_cons_nocancel errFull it _ (h it (by simp)),
      ih (fun x hx => h x (by simp [hx]))]
    simp

lemma take_cancel_false (q : List WItem) (j : Nat) (hj : j < q.length)
    (hnc : ∀ k, ∀ _ : k < q.length, k < j → (q[k]).cancel = false) :
    ∀ it ∈ q.take j, it.cancel = false := by
  intro it hit
  rw [List.mem_iff_getElem] at hit
  obtain ⟨i, hi, hgi⟩ := hit
  have hlen : i < j := by
    rw [List.length_take] at hi
    exact (Nat.lt_min.mp hi).1
  have hi' : i < q.length := Nat.lt_trans hlen hj
  have : (q.take j)[i] = q[i] := List.getElem_take q
  rw [this] at hgi
  rw [← hgi]
  exact hnc i hi' hlen

lemma workerGo_decomp_nocancel (errFull : Bool) (q : List WItem) (j : Nat)
    (hj : j < q.length)
    (hnc : ∀ k, ∀ _ : k < q.length, k < j → (q[k]).cancel = false) :
    workerGo errFull q =
      (q.take j).map normalStep ++ workerGo errFull (q[j] :: q.drop (j + 1)) := by
  conv_lhs => rw [← List.take_append_drop j q]
  rw [workerGo_append_nocancel errFull _ _ (take_cancel_false q j hj hnc),
    List.drop_eq_getElem_cons hj]

lemma length_map_take (q : List WItem) (j : Nat) (hj : j < q.length) :
    ((q.take j).map normalStep).length = j := by
  simp [Nat.le_of_lt hj]

/-- C4: a message picked without cancellation whose delivery fails produces
exactly the step `failed` at its position: the error is attached to the
message as data (`Err := some e`) and that message is what lands in the
error queue via the blocking push; on success the step is `sent` and the
error-queue push of that step is `none` (the message is discarded). The
delivery error is never an exception: `workerGo` is a total function and the
error exists only inside the pushed message. -/
theorem C4_failed_delivery_reported (errFull : Bool) (q : List WItem) (j : Nat)
    (hj : j < q.length)
    (hnc : ∀ k, ∀ _ : k < q.length, k ≤ j → (q[k]).cancel = false) :
    (workerGo errFull q)[j]? = some (normalStep (q[j])) ∧
    stepErrPush (normalStep (q[j])) =
      (q[j]).outcome.map (fun e => (⟨(q[j]).msg.Body, some e⟩ : Message)) ∧
    stepPost (normalStep (q[j])) = some (q[j]).msg.Body := by
  refine ⟨?_, ?_, ?_⟩
  · rw [workerGo_decomp_nocancel errFull q j hj
      (fun k hk hkj => hnc k hk (Nat.le_of_lt hkj))]
    rw [workerGo_cons_nocancel errFull _ _ (hnc j hj (Nat.le_refl j))]
    have h0 : ((q.take j).map normalStep).length = j := length_map_take q j hj
    rw [List.getElem?_append_right (Nat.le_of_eq h0), h0, Nat.sub_self]
    simp
  · cases ho : (q[j]).outcome <;> simp [normalStep, stepErrPush, ho]
  · cases ho : (q[j]).outcome <;> simp [normalStep, stepPost, ho]

/-- C4 witness: the theorem at the concrete run `[wFail, wOk]`, position 0,
whose delivery fails with "boom"; the failed message lands in the error
queue carrying `Err = some "boom"`. -/
theorem C4_failed_delivery_reported_witness :
    (workerGo false [wFail, wOk])[0]? = some (normalStep (([wFail, wOk] : List WItem)[0])) ∧
    stepErrPush (normalStep (([wFail, wOk] : List WItem)[0])) =
      (([wFail, wOk] : List WItem)[0]).outcome.map
        (fun e => (⟨(([wFail, wOk] : List WItem)[0]).msg.Body, some e⟩ : Message)) ∧
    stepPost (normalStep (([wFail, wOk] : List WItem)[0])) =
      some (([wFail, wOk] : List WItem)[0]).msg.Body :=
  C4_failed_delivery_reported false [wFail, wOk] 0 (by decide)
    (by
      intro k hk hkj
      have : k = 0 := by omega
      subst this
      rfl)

lemma workerGo_decomp_cancel (errFull : Bool) (q : List WItem) (j : Nat)
    (hj : j < q.length)
    (hnc : ∀ k, ∀ _ : k < q.length, k < j → (q[k]).cancel = false)
    (hc : (q[j]).cancel = true) :
    workerGo errFull q =
      (q.take j).map normalStep ++
        cancelStep errFull (q[j]).msg ::
          (q.drop (j + 1)).map (fun r => WorkerStep.drained r.msg) := by
  rw [workerGo_decomp_nocancel errFull q j hj hnc, workerGo_cons_cancel errFull _ _ hc]

lemma workerGo_drop_cancel (errFull : Bool) (q : List WItem) (j : Nat)
    (hj : j < q.length)
    (hnc : ∀ k, ∀ _ : k < q.length, k < j → (q[k]).cancel = false)
    (hc : (q[j]).cancel = true) :
    (workerGo errFull q).drop (j + 1) =
      (q.drop (j + 1)).map (fun r => WorkerStep.drained r.msg) := by
  rw [workerGo_decomp_cancel errFull q j hj hnc hc]
  have h0 : ((q.take j).map normalStep).length = j := length_map_take q j hj
  have h1 : j + 1 = ((q.take j).map normalStep).length + 1 := by rw [h0]
  rw [h1, List.drop_append]
  rfl

lemma drained_no_post_no_attempt (l : List WItem) :
    (l.map (fun r => WorkerStep.drained r.msg)).filterMap stepPost = [] ∧
    (l.map (fun r => WorkerStep.drained r.msg)).filterMap stepErrAttempt = [] := by
  constructor <;>
    · rw [List.filterMap_map, List.filterMap_eq_nil_iff]
      intro a _
      rfl

lemma dropped_only_at_cancel (s : WorkerStep)
    (h : stepErrAttempt s ≠ stepErrPush s) : isCancelDropped s = true := by
  cases s <;> simp [stepErrAttempt, stepErrPush, isCancelDropped] at h ⊢

/-- C7: when the worker observes cancellation while holding a message (first
cancellation at position `j`), the step at `j` is the cancellation-exit step:
the in-hand message is offered to the error queue, landing only when the
queue is not full (`errFull = false`) and silently dropped otherwise; the
worker then exits, issuing no further POST; and throughout the run the only
steps whose attempted error-queue push does not land are such
cancellation-exit drops. -/
theorem C7_cancel_exit_best_effort (errFull : Bool) (q : List WItem) (j : Nat)
    (hj : j < q.length)
    (hnc : ∀ k, ∀ _ : k < q.length, k < j → (q[k]).cancel = false)
    (hc : (q[j]).cancel = true) :
    (workerGo errFull q)[j]? = some (cancelStep errFull (q[j]).msg) ∧
    stepErrAttempt (cancelStep errFull (q[j]).msg) = some (q[j]).msg ∧
    stepErrPush (cancelStep errFull (q[j]).msg) =
      (if errFull then none else some (q[j]).msg) ∧
    ((workerGo errFull q).drop (j + 1)).filterMap stepPost = [] ∧
    (droppedSteps (workerGo errFull q)).all isCancelDropped = true := by
  refine ⟨?_, ?_, ?_, ?_, ?_⟩
  · rw [workerGo_decomp_cancel errFull q j hj hnc hc]
    have h0 : ((q.take j).map normalStep).length = j := length_map_take q j hj
    rw [List.getElem?_append_right (Nat.le_of_eq h0), h0, Nat.sub_self]
    simp
  · cases errFull <;> simp [cancelStep, stepErrAttempt]
  · cases errFull <;> simp [cancelStep, stepErrPush]
  · rw [workerGo_drop_cancel errFull q j hj hnc hc]
    exact (drained_no_post_no_attempt (q.drop (j + 1))).1
  · rw [List.all_eq_true]
    intro s hs
    have hp := (List.mem_filter.mp hs).2
    exact dropped_only_at_cancel s (by simpa using hp)

/-- C7 witness: the theorem at the concrete run `[wCancel, wOk]`, position 0,
with the error queue full at that moment: the in-hand message is dropped. -/
theorem C7_cancel_exit_best_effort_witness :
    (workerGo true [wCancel, wOk])[0]? =
      some (cancelStep true (([wCancel, wOk] : List WItem)[0]).msg) ∧
    stepErrAttempt (cancelStep true (([wCancel, wOk] : List WItem)[0]).msg) =
      some (([wCancel, wOk] : List WItem)[0]).msg ∧
    stepErrPush (cancelStep true (([wCancel, wOk] : List WItem)[0]).msg) =
      (if true then none else some (([wCancel, wOk] : List WItem)[0]).msg) ∧
    ((workerGo true [wCancel, wOk]).drop (0 + 1)).filterMap stepPost = [] ∧
    (droppedSteps (workerGo true [wCancel, wOk])).all isCancelDropped = true :=
  C7_cancel_exit_best_effort true [wCancel, wOk] 0 (by decide)
    (fun k hk hkj => absurd hkj (by omega)) rfl

/-- C9: after a worker returns on the cancellation path (first cancellation
at position `j`), the deferred drain loop consumes every remaining intake
item, turning each into a `drained` step, and those steps issue no POST and
offer nothing to the error queue: the messages vanish silently. -/
theorem C9_cancel_drain_discards (errFull : Bool) (q : List WItem) (j : Nat)
    (hj : j < q.length)
    (hnc : ∀ k, ∀ _ : k < q.length, k < j → (q[k]).cancel = false)
    (hc : (q[j]).cancel = true) :
    (workerGo errFull q).drop (j + 1) =
      (q.drop (j + 1)).map (fun r => WorkerStep.drained r.msg) ∧
    (workerGo errFull q).length = q.length ∧
    ((q.drop (j + 1)).map (fun r => WorkerStep.drained r.msg)).filterMap stepPost = [] ∧
    ((q.drop (j + 1)).map (fun r => WorkerStep.drained r.msg)).filterMap stepErrAttempt
      = [] := by
  refine ⟨workerGo_drop_cancel errFull q j hj hnc hc, ?_,
    (drained_no_post_no_attempt (q.drop (j + 1))).1,
    (drained_no_post_no_attempt (q.drop (j + 1))).2⟩
  rw [workerGo_decomp_cancel errFull q j hj hnc hc]
  simp [Nat.le_of_lt hj]
  omega

/-- C9 witness: the theorem at the concrete run `[wFail, wCancel, wOk]` with
the cancellation observed at position 1: the trailing item is drained. -/
theorem C9_cancel_drain_discards_witness :
    (workerGo false [wFail, wCancel, wOk]).drop (1 + 1) =
      (([wFail, wCancel, wOk] : List WItem).drop (1 + 1)).map
        (fun r => WorkerStep.drained r.msg) ∧
    (workerGo false [wFail, wCancel, wOk]).length =
      ([wFail, wCancel, wOk] : List WItem).length ∧
    ((([wFail, wCancel, wOk] : List WItem).drop (1 + 1)).map
        (fun r => WorkerStep.drained r.msg)).filterMap stepPost = [] ∧
    ((([wFail, wCancel, wOk] : List WItem).drop (1 + 1)).map
        (fun r => WorkerStep.drained r.msg)).filterMap stepErrAttempt = [] :=
  C9_cancel_drain_discards false [wFail, wCancel, wOk] 1 (by decide)
    (by
      intro k hk hkj
      have : k = 0 := by omega
      subst this
      rfl)
    rfl

/-- C3: whenever the request can be built, delivering a message hands the
client exactly one request — method POST, the configured url, header
`Content-Type: text/plain`, body the message text verbatim — with no retry,
and the delivery succeeds if and only if the client's answer is a response
with status exactly 200: every other status, and every transport error or
timeout, yields a non-nil error. -/
theorem C3_one_post_success_iff_200 (env : HttpEnv) (url body : String)
    (h : env.newRequestOk = true) :
    (sendNotificationWithClient env url body).2 =
      [⟨"POST", url, "text/plain", body⟩] ∧
    ((sendNotificationWithClient env url body).1 = Except.ok () ↔
      env.transport ⟨"POST", url, "text/plain", body⟩ = TransportResult.resp 200) := by
  simp only [sendNotificationWithClient, h]
  cases ht : env.transport ⟨"POST", url, "text/plain", body⟩ with
  | err e => simp [ht]
  | resp code =>
    by_cases hc : code = 200
    · subst hc
      simp [ht]
    · simp [ht, hc]

/-- C3 witness: the theorem at a concrete always-200 environment. -/
theorem C3_one_post_success_iff_200_witness :
    httpEnv200.newRequestOk = true ∧
    ((sendNotificationWithClient httpEnv200 "http://s/notify" "m1").2 =
      [⟨"POST", "http://s/notify", "text/plain", "m1"⟩] ∧
    ((sendNotificationWithClient httpEnv200 "http://s/notify" "m1").1 = Except.ok () ↔
      httpEnv200.transport ⟨"POST", "http://s/notify", "text/plain", "m1"⟩ =
        TransportResult.resp 200)) :=
  ⟨rfl, C3_one_post_success_iff_200 httpEnv200 "http://s/notify" "m1" rfl⟩

/-- C5: Stop first closes the sending channel, then waits for the workers,
only then closes the error channel, and last drains and drops what the
error channel still holds; afterwards both channels are closed, no worker
task is live and both channels are empty. Since the cancellation signal is
never fired during Stop, a worker's run over its remaining items (none of
which observes a cancellation) completes every delivery — each item becomes
a full `sent`/`failed` step, never a drained or cancelled one — and the run
ends, so no POST is ever issued after Stop returns. -/
theorem C5_stop_orderly_teardown (st : NotifierState) (errFull : Bool)
    (q : List WItem) (hq : ∀ it ∈ q, it.cancel = false) :
    (NotifierStop st).2 =
      [StopAction.closeIntake, StopAction.waitWorkers, StopAction.closeErr,
        StopAction.drainErr st.qerr] ∧
    (NotifierStop st).1 = ⟨true, [], true, true, []⟩ ∧
    workerGo errFull q = q.map normalStep ∧
    (workerGo errFull q).length = q.length := by
  refine ⟨rfl, rfl, ?_, ?_⟩
  · have h := workerGo_append_nocancel errFull q [] hq
    simpa [workerGo] using h
  · have h := workerGo_append_nocancel errFull q [] hq
    simp [workerGo] at h
    rw [h]
    simp

/-- C5 witness: the theorem at a concrete state holding one failed message
in the error channel and a worker with one remaining successful item. -/
theorem C5_stop_orderly_teardown_witness :
    (NotifierStop ⟨false, [mA], false, false, [⟨"x", some "boom"⟩]⟩).2 =
      [StopAction.closeIntake, StopAction.waitWorkers, StopAction.closeErr,
        StopAction.drainErr (⟨false, [mA], false, false,
          [⟨"x", some "boom"⟩]⟩ : NotifierState).qerr] ∧
    (NotifierStop ⟨false, [mA], false, false, [⟨"x", some "boom"⟩]⟩).1 =
      ⟨true, [], true, true, []⟩ ∧
    workerGo false [wOk] = ([wOk] : List WItem).map normalStep ∧
    (workerGo false [wOk]).length = ([wOk] : List WItem).length :=
  C5_stop_orderly_teardown ⟨false, [mA], false, false, [⟨"x", some "boom"⟩]⟩
    false [wOk]
    (by
      intro it hit
      rw [List.mem_singleton] at hit
      subst hit
      rfl)

lemma enqBlocking_space (cap : Nat) (m : Message) (q : List Message)
    (ds : List Nat) (h : q.length < cap) :
    enqBlocking cap m q ds = some (q ++ [m], ds) := by
  cases ds <;> simp [enqBlocking, h]

lemma sendGo_enqueued (cap : Nat) :
    ∀ (msgs q : List Message) (ds : List Nat) (out : SendOutcome),
      sendGo cap q ds msgs = some out → out.enqueued = msgs := by
  intro msgs
  induction msgs with
  | nil =>
    intro q ds out h
    simp [sendGo] at h
    rw [← h]
  | cons m rest ih =>
    intro q ds out h
    cases he : enqBlocking cap m q ds with
    | none => simp [sendGo, he] at h
    | some p =>
      obtain ⟨q1, ds1⟩ := p
      cases hs : sendGo cap q1 ds1 rest with
      | none => simp [sendGo, he, hs] at h
      | some out0 =>
        simp [sendGo, he, hs] at h
        rw [← h]
        simp [ih q1 ds1 out0 hs]

lemma sendGo_all_fit (cap : Nat) :
    ∀ (msgs q : List Message), q.length + msgs.length ≤ cap →
      sendGo cap q [] msgs = some ⟨q ++ msgs, [], msgs⟩ := by
  intro msgs
  induction msgs with
  | nil => intro q h; simp [sendGo]
  | cons m rest ih =>
    intro q h
    have hs : q.length < cap := by simp at h; omega
    simp only [sendGo, enqBlocking_space cap m q [] hs]
    rw [ih (q ++ [m]) (by simp at h ⊢; omega)]
    simp

lemma sendGo_no_drain_blocks (cap : Nat) :
    ∀ (msgs q : List Message), q.length ≤ cap → cap < q.length + msgs.length →
      sendGo cap q [] msgs = none := by
  intro msgs
  induction msgs with
  | nil => intro q h1 h2; simp at h2; omega
  | cons m rest ih =>
    intro q h1 h2
    by_cases hs : q.length < cap
    · simp only [sendGo, enqBlocking_space cap m q [] hs]
      rw [ih (q ++ [m]) (by simp; omega) (by simp at h2 ⊢; omega)]
    · have he : enqBlocking cap m q [] = none := by
        simp only [enqBlocking]
        rw [if_neg hs]
      simp only [sendGo, he]

lemma sendGo_one_drain (cap : Nat) (hcap : 0 < cap) :
    ∀ (msgs q : List Message), q.length + msgs.length ≤ cap + 1 →
      q.length ≤ cap →
      (sendGo cap q [1] msgs).map (fun out => out.enqueued) = some msgs := by
  intro msgs
  induction msgs with
  | nil => intro q _ _; simp [sendGo]
  | cons m rest ih =>
    intro q h1 h2
    by_cases hs : q.length < cap
    · simp only [sendGo, enqBlocking_space cap m q [1] hs]
      have hr := ih (q ++ [m]) (by simp at h1 ⊢; omega) (by simp; omega)
      cases hso : sendGo cap (q ++ [m]) [1] rest with
      | none => rw [hso] at hr; simp at hr
      | some out0 =>
        rw [hso] at hr
        simp at hr
        simp [hso, hr]
    · have hq : q.length = cap := by omega
      have hr0 : rest.length = 0 := by simp at h1; omega
      have hr : rest = [] := List.length_eq_zero.mp hr0
      subst hr
      have hd : (q.drop 1).length < cap := by
        simp [List.length_drop]
        omega
      have he : enqBlocking cap m q [1] = some (q.drop 1 ++ [m], []) := by
        simp only [enqBlocking]
        rw [if_neg hs, if_pos hd]
      simp [sendGo, he]

/-- C6: Send enqueues its messages onto the sending channel in sequence
order, one at a time (whenever the call completes, the enqueue trace is the
message sequence itself), blocking the caller when the channel is full: with
capacity `cap`, a batch that fits is enqueued outright (and sits in the
channel in order), a batch of more than `cap` messages into an empty channel
with workers never draining blocks forever, and the same `cap + 1`-message
batch completes as soon as a worker frees one slot. Send produces no result
value; its outcome never depends on any delivery result. -/
theorem C6_send_in_order_with_backpressure (cap : Nat) (messages q : List Message)
    (ds : List Nat) (hcap : 0 < cap) :
    (sendGo cap q ds messages).map (fun out => out.enqueued) =
      (sendGo cap q ds messages).map (fun _ => messages) ∧
    (messages.length ≤ cap → sendGo cap [] [] messages = some ⟨messages, [], messages⟩) ∧
    (cap < messages.length → sendGo cap [] [] messages = none) ∧
    (messages.length = cap + 1 →
      (sendGo cap [] [1] messages).map (fun out => out.enqueued) = some messages) := by
  refine ⟨?_, ?_, ?_, ?_⟩
  · cases hs : sendGo cap q ds messages with
    | none => rfl
    | some out => simp [sendGo_enqueued cap messages q ds out hs]
  · intro h
    have := sendGo_all_fit cap messages [] (by simpa using h)
    simpa using this
  · intro h
    exact sendGo_no_drain_blocks cap messages [] (by simp) (by simpa using h)
  · intro h
    exact sendGo_one_drain cap hcap messages [] (by simp [h]) (by simp)

/-- C6 witness: capacity 2 with a 3-message batch: with no worker drain the
call blocks; with one freed slot all three messages are enqueued in order. -/
theorem C6_send_in_order_with_backpressure_witness :
    ((sendGo 2 [] [] [mA, mB, mC]).map (fun out => out.enqueued) =
      (sendGo 2 [] [] [mA, mB, mC]).map (fun _ => [mA, mB, mC])) ∧
    ([mA, mB, mC].length ≤ 2 →
      sendGo 2 [] [] [mA, mB, mC] = some ⟨[mA, mB, mC], [], [mA, mB, mC]⟩) ∧
    (2 < [mA, mB, mC].length → sendGo 2 [] [] [mA, mB, mC] = none) ∧
    ([mA, mB, mC].length = 2 + 1 →
      (sendGo 2 [] [1] [mA, mB, mC]).map (fun out => out.enqueued) =
        some [mA, mB, mC]) :=
  C6_send_in_order_with_backpressure 2 [mA, mB, mC] [] [] (by decide)

/-- C10: Send with an empty message sequence is a no-op: it enqueues
nothing, completes at once without blocking whatever the channel holds and
whether or not any worker ever drains, and leaves the sending channel, the
error channel and every other field of the Notifier state unchanged. -/
theorem C10_send_empty_noop (cap : Nat) (st : NotifierState) (ds : List Nat) :
    NotifierSend cap st ds [] = some st ∧
    sendGo cap st.q ds [] = some ⟨st.q, ds, []⟩ :=
  ⟨rfl, rfl⟩

lemma senderGo_flatten (cap : Nat) :
    ∀ (input : List Message) (evs : List SenderEvent) (buf : List Message),
      SenderEvent.cancel ∉ evs →
      (senderGo cap evs buf input).flatten = buf ++ input := by
  intro input
  induction input with
  | nil => intro evs buf _; simp [senderGo]
  | cons m rest ih =>
    intro evs buf h
    cases evs with
    | nil =>
      by_cases hb : buf.length < cap
      · simp only [senderGo, if_pos hb]
        rw [ih [] (buf ++ [m]) (by simp)]
        simp
      · simp only [senderGo, if_neg hb]
        rw [List.flatten_cons, ih [] [] (by simp)]
        simp
    | cons e evs =>
      have he : e ≠ SenderEvent.cancel := fun hc => h (by simp [hc])
      have hm : SenderEvent.cancel ∉ evs := fun hc => h (by simp [hc])
      cases e with
      | cancel => exact absurd rfl he
      | tick =>
        simp only [senderGo]
        rw [List.flatten_cons, ih evs [] hm]
        simp
      | buffer =>
        by_cases hb : buf.length < cap
        · simp only [senderGo, if_pos hb]
          rw [ih evs (buf ++ [m]) hm]
          simp
        · simp only [senderGo, if_neg hb]
          rw [List.flatten_cons, ih evs [] hm]
          simp

/-- C8: as long as the Sender is not cancelled, the batches it passes to
`Send` — including the final flush when the input stream ends — concatenate
to exactly the input stream: their union is the full input, no message
appears in more than one batch, and no message is lost or delivered twice
(the order is even preserved). -/
theorem C8_batches_partition_input (cap : Nat) (evs : List SenderEvent)
    (input : List Message) (h : SenderEvent.cancel ∉ evs) :
    (senderGo cap evs [] input).flatten = input := by
  simpa using senderGo_flatten cap input evs [] h

/-- C8 witness: buffer capacity 1, a tick after the first message, three
input messages: the two batches concatenate to the input. -/
theorem C8_batches_partition_input_witness :
    (senderGo 1 [SenderEvent.tick, SenderEvent.buffer] [] [mA, mB, mC]).flatten =
      [mA, mB, mC] :=
  C8_batches_partition_input 1 [SenderEvent.tick, SenderEvent.buffer]
    [mA, mB, mC] (by decide)

end Notify
